import Mathlib

/-!
Subscription cost aggregation (`internal/service/service.go`).

A shallow embedding of `subscriptionService.CalculateTotalCost` and of the part of Go's
`time` package it relies on, followed by the properties of the aggregation that the
specification states.

Modelling conventions:

* A `time.Time` is taken at day precision in UTC: a value of `Time` is a calendar date of the
  proleptic Gregorian calendar (year, month `1..12`, day `1..daysIn month year`). On such values
  `Before` and `After` compare year, month and day in that order.
* `time.Date` and `Time.AddDate` normalise an out-of-range month into the year and an
  out-of-range day into the neighbouring months, as the Go library does.
* Go's `int` is the 64-bit two's complement integer: a price is an `Int` inside that range, and
  the sum and the product of `totalCost += sub.Price * months` wrap around (`wrapInt`).
* Logging and the `context.Context` argument have no influence on the result and are left out.
-/

namespace SubscriptionService

/-! ## The `time` package at day precision -/

/-- Leap-year test of the Gregorian calendar (`time.isLeap`). -/
def isLeap (year : Int) : Bool :=
  year % 4 == 0 && (year % 100 != 0 || year % 400 == 0)

/-- Number of days of month `m` in `year` (`time.daysIn`). -/
def daysIn (m : Nat) (year : Int) : Nat :=
  if m = 2 then (if isLeap year then 29 else 28)
  else if m = 4 ∨ m = 6 ∨ m = 9 ∨ m = 11 then 30
  else 31

/-- A `time.Time` at day precision in UTC: a calendar date. The fields are what the Go
accessors `Year()`, `Month()` and `Day()` return. -/
structure Time where
  Year : Int
  Month : Nat
  Day : Nat
  month_ok : 1 ≤ Month ∧ Month ≤ 12
  day_ok : 1 ≤ Day ∧ Day ≤ daysIn Month Year
deriving DecidableEq

/-- Go's `t.Before(u)`: the instant `t` is strictly earlier than `u`. -/
def Time.Before (t u : Time) : Bool :=
  decide (t.Year < u.Year ∨
    (t.Year = u.Year ∧ (t.Month < u.Month ∨ (t.Month = u.Month ∧ t.Day < u.Day))))

/-- Go's `t.After(u)`: the instant `t` is strictly later than `u`. -/
def Time.After (t u : Time) : Bool :=
  u.Before t

/-- Day normalisation of `time.Date`: a day number outside `1..daysIn month year` is carried
into the previous or the following months. Every step moves `day` by at least 28 towards the
range, so `day.natAbs + 2` rounds always suffice. -/
def normDay : Nat → (year : Int) → (month : Nat) → 1 ≤ month ∧ month ≤ 12 → Int → Time
  | 0, year, month, hm, _ =>
    ⟨year, month, 1, hm, by unfold daysIn; split <;> (try split) <;> omega⟩
  | fuel + 1, year, month, hm, day =>
    if _h1 : day < 1 then
      if _hJan : month = 1 then normDay fuel (year - 1) 12 (by decide) (day + 31)
      else normDay fuel year (month - 1) (by omega) (day + daysIn (month - 1) year)
    else if _h2 : (daysIn month year : Int) < day then
      if _hDec : month = 12 then normDay fuel (year + 1) 1 (by decide) (day - 31)
      else normDay fuel year (month + 1) (by omega) (day - daysIn month year)
    else ⟨year, month, day.toNat, hm, by omega⟩

/-- Go's `time.Date(year, month, day, 0, 0, 0, 0, time.UTC)`: the month is normalised into
`1..12` by carrying into the year (`norm(year, month-1, 12)`), then the day is normalised. -/
def Date (year : Int) (month : Int) (day : Int) : Time :=
  normDay (day.natAbs + 2) (year + (month - 1) / 12) (((month - 1) % 12).toNat + 1)
    (by omega) day

/-- Go's `t.AddDate(years, months, days)`, which is
`Date(t.Year()+years, t.Month()+months, t.Day()+days, ...)`. -/
def Time.AddDate (t : Time) (years months days : Int) : Time :=
  Date (t.Year + years) (t.Month + months) (t.Day + days)

/-! ## Go's `int` -/

/-- The smallest value of Go's `int` on a 64-bit platform, `-2^63`. -/
def minInt : Int := -9223372036854775808

/-- The largest value of Go's `int` on a 64-bit platform, `2^63 - 1`. -/
def maxInt : Int := 9223372036854775807

/-- The value Go's `int` holds for the exact result `x` of an addition or a multiplication:
`x` reduced modulo `2^64` into `-2^63 .. 2^63 - 1` (two's complement wrap-around). -/
def wrapInt (x : Int) : Int :=
  (x + 9223372036854775808) % 18446744073709551616 - 9223372036854775808

/-! ## `internal/model/subscription.go` and the repository interface -/

/-- The fields of `model.Subscription`; identifiers are opaque numbers, and `Price` is a Go
`int`. -/
structure Subscription where
  ID : Nat
  UserID : Nat
  ServiceName : String
  Price : Int
  StartDate : Time
  EndDate : Option Time
  price_ok : -9223372036854775808 ≤ Price ∧ Price ≤ 9223372036854775807
deriving DecidableEq

/-! ## `internal/service/service.go` -/

/-- The helper `maxTime` of `service.go`. -/
def maxTime (a b : Time) : Time :=
  if a.After b then a else b

/-- The helper `minTime` of `service.go`. -/
def minTime (a b : Time) : Time :=
  if a.Before b then a else b

/-- The inner loop of `CalculateTotalCost`:
`for !currentMonth.After(overlapEnd) { months++; currentMonth = currentMonth.AddDate(0, 1, 0) }`,
returning the final value of `months`. It terminates because every round moves `currentMonth`
to a later month while `overlapEnd` stays fixed. The counter is kept exact: it counts the
months between two dates, which Go's `int` holds without wrapping. -/
def monthLoop (currentMonth overlapEnd : Time) (months : Int) : Int :=
  if currentMonth.After overlapEnd then months
  else monthLoop (currentMonth.AddDate 0 1 0) overlapEnd (months + 1)
termination_by
  (overlapEnd.Year * 12 + overlapEnd.Month + 1 - (currentMonth.Year * 12 + currentMonth.Month)).toNat
decreasing_by
  rename_i hAfter
  have key : ∀ (fuel : Nat) (y : Int) (m : Nat) (hm : 1 ≤ m ∧ m ≤ 12) (d : Int), 1 ≤ d →
      y * 12 + m ≤ (normDay fuel y m hm d).Year * 12 + (normDay fuel y m hm d).Month := by
    intro fuel
    induction fuel with
    | zero => intro y m _ d _; simp [normDay]
    | succ n ih =>
      intro y m hm d hd
      have hdm : 1 ≤ daysIn m y := by unfold daysIn; split <;> (try split) <;> omega
      unfold normDay
      rw [dif_neg (by omega)]
      split
      · split
        · have := ih (y + 1) 1 (by decide) (d - 31) (by subst m; simp [daysIn] at *; omega)
          omega
        · have := ih y (m + 1) (by omega) (d - daysIn m y) (by omega)
          push_cast at this
          omega
      · simp
  have hAdd := key ((currentMonth.Day + (0 : Int)).natAbs + 2)
    (currentMonth.Year + 0 + ((currentMonth.Month : Int) + 1 - 1) / 12)
    ((((currentMonth.Month : Int) + 1 - 1) % 12).toNat + 1) (by omega)
    (currentMonth.Day + 0) (by have := currentMonth.day_ok; omega)
  have hLe : currentMonth.Year * 12 + currentMonth.Month
      ≤ overlapEnd.Year * 12 + overlapEnd.Month := by
    have h1 := currentMonth.month_ok
    have h2 := overlapEnd.month_ok
    simp only [Time.After, Time.Before, decide_eq_true_eq] at hAfter
    omega
  simp only [Time.AddDate, Date]
  push_cast at hAdd
  omega

/-- An error value returned by the storage layer (opaque). -/
abbrev Error := String

/-- The one method of `repository.SubscriptionRepository` that `CalculateTotalCost` calls: list
the subscriptions of a user, optionally restricted to a service name, or fail. -/
structure SubscriptionRepository where
  ListByUserID : Nat → Option String → Except Error (List Subscription)

/-- The body of `for _, sub := range subscriptions` in `CalculateTotalCost`, as a function from
the running `totalCost` before the round to the running `totalCost` after it. The statement
`totalCost += sub.Price * months` is computed in Go's `int`: the product wraps, then the
sum wraps. -/
def totalCostStep (startPeriod endPeriod : Time) (totalCost : Int) (sub : Subscription) : Int :=
  let subEnd :=
    match sub.EndDate with
    | some endDate => if endDate.Before endPeriod then endDate else endPeriod
    | none => endPeriod
  let overlapStart := maxTime sub.StartDate startPeriod
  let overlapEnd := minTime subEnd endPeriod
  if overlapStart.After overlapEnd then totalCost
  else
    let months := monthLoop (Date overlapStart.Year overlapStart.Month 1) overlapEnd 0
    wrapInt (totalCost + wrapInt (sub.Price * months))

/-- The loop of `CalculateTotalCost` over the listed subscriptions, starting from
`totalCost := 0`. -/
def sumCosts (subscriptions : List Subscription) (startPeriod endPeriod : Time) : Int :=
  subscriptions.foldl (totalCostStep startPeriod endPeriod) 0

/-- The method `subscriptionService.CalculateTotalCost`: the pair `(totalCost, err)` it returns,
`none` standing for a `nil` error. -/
def CalculateTotalCost (repo : SubscriptionRepository) (userID : Nat)
    (serviceName : Option String) (startPeriod endPeriod : Time) : Int × Option Error :=
  match repo.ListByUserID userID serviceName with
  | .error err => (0, some err)
  | .ok subscriptions => (sumCosts subscriptions startPeriod endPeriod, none)

/-- What one record adds to the total: the effect of one round of the loop on a running total
of zero. -/
def contribution (sub : Subscription) (startPeriod endPeriod : Time) : Int :=
  totalCostStep startPeriod endPeriod 0 sub

/-! ## `internal/handler/http/handler.go`: the period bounds -/

/-- The value of a decimal digit, `none` for any other character. -/
def digitValue (c : Char) : Option Nat :=
  if '0' ≤ c ∧ c ≤ '9' then some (c.toNat - '0'.toNat) else none

/-- The first day of month `month` of year `year`: what `time.Parse` returns for a layout that
names a year and a month only (day 1, midnight, UTC). -/
def firstOfMonth (year : Int) (month : Nat) (hm : 1 ≤ month ∧ month ≤ 12) : Time :=
  ⟨year, month, 1, hm, by unfold daysIn; split <;> (try split) <;> omega⟩

/-- Go's `time.Parse("2006-01", value)`: exactly four digits, a dash and two digits that name
a month `01..12`; `none` stands for the parse error. -/
def ParseYearMonth (value : String) : Option Time :=
  match value.toList with
  | [y1, y2, y3, y4, '-', m1, m2] =>
    match digitValue y1, digitValue y2, digitValue y3, digitValue y4,
        digitValue m1, digitValue m2 with
    | some a, some b, some c, some d, some e, some f =>
      if hm : 1 ≤ 10 * e + f ∧ 10 * e + f ≤ 12 then
        some (firstOfMonth ((1000 * a + 100 * b + 10 * c + d : Nat) : Int) (10 * e + f) hm)
      else none
    | _, _, _, _, _, _ => none
  | _ => none

/-- The end of the period as `Handler.CalculateTotalCost` passes it to the service: the query
value `end_period` parsed with `time.Parse("2006-01", ...)`, then
`endPeriod = endPeriod.AddDate(0, 1, -1)`; `none` stands for the 400 response on a parse
error. -/
def handlerEndPeriod (endPeriodStr : String) : Option Time :=
  match ParseYearMonth endPeriodStr with
  | none => none
  | some endPeriod => some (endPeriod.AddDate 0 1 (-1))

/-! ## Vocabulary of the specification -/

/-- Position of the month of `t` on the line of all months: consecutive calendar months have
consecutive positions. -/
def monthIndex (t : Time) : Int :=
  t.Year * 12 + t.Month

/-- The effective billing end of the specification (§4.1, step 1): `endDate` when it is present
and earlier than `periodEnd`, otherwise `periodEnd`. -/
def effectiveEnd (sub : Subscription) (periodEnd : Time) : Time :=
  match sub.EndDate with
  | some endDate => if endDate.Before periodEnd then endDate else periodEnd
  | none => periodEnd

/-- The specification's `overlapStart = max(startDate, periodStart)`. -/
def overlapStart (sub : Subscription) (periodStart : Time) : Time :=
  maxTime sub.StartDate periodStart

/-- The specification's `overlapEnd = min(effectiveEnd, periodEnd)`. -/
def overlapEnd (sub : Subscription) (periodEnd : Time) : Time :=
  minTime (effectiveEnd sub periodEnd) periodEnd

/-- The closed-form month difference of the specification (§9):
`(endYear − startYear) × 12 + (endMonth − startMonth) + 1`. -/
def closedFormMonths (first last : Time) : Int :=
  (last.Year - first.Year) * 12 + ((last.Month : Int) - (first.Month : Int)) + 1

/-- The number of months the loop of `CalculateTotalCost` bills the record for in the window:
none when the clamped overlap is empty, the closed-form month count otherwise. -/
def billedMonths (sub : Subscription) (periodStart periodEnd : Time) : Int :=
  if (overlapStart sub periodStart).After (overlapEnd sub periodEnd) then 0
  else closedFormMonths (overlapStart sub periodStart) (overlapEnd sub periodEnd)

/-- The exact (unbounded) cost of the record in the window: its price times the months billed,
before any wrap-around. -/
def exactCost (sub : Subscription) (periodStart periodEnd : Time) : Int :=
  sub.Price * billedMonths sub periodStart periodEnd

/-- A date as one number that grows with the calendar: 32 slots per month, the day inside. -/
def dayKey (t : Time) : Int :=
  32 * monthIndex t + t.Day

/-- The number of calendar months from the month of `first` through the month of `last`,
both included: the months are counted on the line of all months. -/
def monthsSpanned (first last : Time) : Nat :=
  (Finset.Icc (monthIndex first) (monthIndex last)).card

/-- A store whose listing succeeds with the given records, whatever the user and the filter. -/
def storeOf (subscriptions : List Subscription) : SubscriptionRepository :=
  ⟨fun _ _ => .ok subscriptions⟩

/-- A store whose listing fails with the given error, whatever the user and the filter. -/
def failingStore (err : Error) : SubscriptionRepository :=
  ⟨fun _ _ => .error err⟩

/-! ## Concrete dates and records of the specification's scenarios -/

def jan01 : Time := ⟨2024, 1, 1, by decide, by decide⟩
def jan15 : Time := ⟨2024, 1, 15, by decide, by decide⟩
def jan31 : Time := ⟨2024, 1, 31, by decide, by decide⟩
def feb01 : Time := ⟨2024, 2, 1, by decide, by decide⟩
def feb20 : Time := ⟨2024, 2, 20, by decide, by decide⟩
def feb29 : Time := ⟨2024, 2, 29, by decide, by decide⟩
def mar31 : Time := ⟨2024, 3, 31, by decide, by decide⟩
def may01 : Time := ⟨2024, 5, 1, by decide, by decide⟩

/-- Scenario 1: `startDate = 2024-01-15`, no end date, price 1000. -/
def scenario1 : Subscription := ⟨1, 7, "music", 1000, jan15, none, by decide⟩

/-- Scenario 2: `startDate = 2024-02-01`, `endDate = 2024-02-20`, price 500. -/
def scenario2 : Subscription := ⟨2, 7, "video", 500, feb01, some feb20, by decide⟩

/-- Scenario 3: `startDate = 2024-05-01`, no end date, price 100. -/
def scenario3 : Subscription := ⟨3, 7, "news", 100, may01, none, by decide⟩

/-- Scenario 4, first record: price 100, covering January and February 2024. -/
def scenario4a : Subscription := ⟨4, 7, "cloud", 100, jan01, some feb29, by decide⟩

/-- Scenario 4, second record: price 200, covering January and February 2024. -/
def scenario4b : Subscription := ⟨5, 7, "games", 200, jan15, some feb20, by decide⟩

/-- Scenario 5: an end date (2024-01-15) earlier than the start date (2024-02-20). -/
def scenario5 : Subscription := ⟨6, 7, "books", 300, feb20, some jan15, by decide⟩

/-- A record that starts on 2024-01-15, has no end date and costs `2^62` a month. -/
def hugePrice : Subscription := ⟨10, 7, "yacht", 4611686018427387904, jan15, none, by decide⟩

/-- A record that starts on the last day of the window of the scenarios. -/
def lastDayRecord : Subscription := ⟨8, 7, "mail", 250, mar31, none, by decide⟩

/-- A record that ends on 2024-01-15, started earlier. -/
def firstDayRecord : Subscription := ⟨9, 7, "maps", 40, jan01, some jan15, by decide⟩

/-! ## Facts about the calendar model -/

theorem one_le_daysIn (m : Nat) (year : Int) : 1 ≤ daysIn m year := by
  unfold daysIn; split <;> (try split) <;> omega

theorem normDay_in_range (fuel : Nat) (hf : fuel ≠ 0) (y : Int) (m : Nat)
    (hm : 1 ≤ m ∧ m ≤ 12) (d : Int) (h1 : 1 ≤ d) (h2 : d ≤ daysIn m y) :
    (normDay fuel y m hm d).Year = y ∧ (normDay fuel y m hm d).Month = m ∧
      ((normDay fuel y m hm d).Day : Int) = d := by
  cases fuel with
  | zero => exact absurd rfl hf
  | succ k =>
    unfold normDay
    rw [dif_neg (by omega), dif_neg (by omega)]
    refine ⟨rfl, rfl, ?_⟩
    show ((d.toNat : Nat) : Int) = d
    omega

theorem Date_first_of_month (y : Int) (m : Nat) (hm : 1 ≤ m ∧ m ≤ 12) :
    (Date y m 1).Year = y ∧ (Date y m 1).Month = m ∧ (Date y m 1).Day = 1 := by
  have hd := one_le_daysIn (((((m : Int) - 1) % 12).toNat) + 1) (y + ((m : Int) - 1) / 12)
  obtain ⟨a, b, c⟩ := normDay_in_range ((1 : Int).natAbs + 2) (by omega)
    (y + ((m : Int) - 1) / 12) (((((m : Int) - 1) % 12).toNat) + 1) (by omega) 1
    (by omega) (by omega)
  unfold Date
  refine ⟨?_, ?_, ?_⟩
  · rw [a]; omega
  · rw [b]; omega
  · exact_mod_cast c

theorem AddDate_first_of_month (t : Time) (h : t.Day = 1) :
    monthIndex (t.AddDate 0 1 0) = monthIndex t + 1 ∧ (t.AddDate 0 1 0).Day = 1 := by
  have hm := t.month_ok
  have hd := one_le_daysIn (((((t.Month : Int) + 1 - 1) % 12).toNat) + 1)
    (t.Year + 0 + ((t.Month : Int) + 1 - 1) / 12)
  obtain ⟨a, b, c⟩ := normDay_in_range (((t.Day : Int) + 0).natAbs + 2) (by omega)
    (t.Year + 0 + ((t.Month : Int) + 1 - 1) / 12)
    (((((t.Month : Int) + 1 - 1) % 12).toNat) + 1) (by omega) ((t.Day : Int) + 0)
    (by omega) (by omega)
  unfold monthIndex Time.AddDate Date
  refine ⟨?_, ?_⟩
  · rw [a, b]; push_cast; omega
  · have : (((normDay (((t.Day : Int) + 0).natAbs + 2)
        (t.Year + 0 + ((t.Month : Int) + 1 - 1) / 12)
        (((((t.Month : Int) + 1 - 1) % 12).toNat) + 1) (by omega) ((t.Day : Int) + 0)).Day : Nat) : Int)
        = 1 := by rw [c]; omega
    exact_mod_cast this

/-- With `t` on a first of the month, `t` is after `u` exactly when its month is. -/
theorem After_first_of_month (t u : Time) (h : t.Day = 1) :
    t.After u = true ↔ monthIndex u < monthIndex t := by
  have h1 := t.month_ok
  have h2 := u.month_ok
  have h3 := u.day_ok
  simp only [Time.After, Time.Before, decide_eq_true_eq, monthIndex]
  omega

/-- The month-counting loop adds to `months` the number of months from the month of
`currentMonth` through the month of `overlapEnd`. -/
theorem monthLoop_count (overlapEnd : Time) (n : Nat) :
    ∀ (currentMonth : Time) (months : Int), currentMonth.Day = 1 →
      (monthIndex overlapEnd + 1 - monthIndex currentMonth).toNat = n →
      monthLoop currentMonth overlapEnd months = months + n := by
  induction n with
  | zero =>
    intro cur months hday hn
    rw [monthLoop, if_pos ((After_first_of_month cur overlapEnd hday).2 (by omega))]
    simp
  | succ k ih =>
    intro cur months hday hn
    have hnot : ¬ cur.After overlapEnd = true := by
      rw [After_first_of_month cur overlapEnd hday]; omega
    obtain ⟨hidx, hday2⟩ := AddDate_first_of_month cur hday
    rw [monthLoop, if_neg hnot, ih (cur.AddDate 0 1 0) (months + 1) hday2 (by omega)]
    push_cast; ring

/-- Order facts: `Before` and `After` are the strict order by `(Year, Month, Day)`. -/
theorem After_iff (t u : Time) :
    t.After u = true ↔ (u.Year < t.Year ∨
      (u.Year = t.Year ∧ (u.Month < t.Month ∨ (u.Month = t.Month ∧ u.Day < t.Day)))) := by
  simp [Time.After, Time.Before]

theorem Before_iff (t u : Time) :
    t.Before u = true ↔ (t.Year < u.Year ∨
      (t.Year = u.Year ∧ (t.Month < u.Month ∨ (t.Month = u.Month ∧ t.Day < u.Day)))) := by
  simp [Time.Before]

/-- Started on the first day of the month of `first`, the loop counts the closed-form number
of months whenever `first` is not after `last`. -/
theorem monthLoop_closed_form (first last : Time) (h : first.After last = false) :
    monthLoop (Date first.Year first.Month 1) last 0 = closedFormMonths first last := by
  obtain ⟨hy, hm, hd⟩ := Date_first_of_month first.Year first.Month first.month_ok
  have h1 := first.month_ok
  have h2 := last.month_ok
  have hno : ¬ first.After last = true := by simp [h]
  rw [After_iff] at hno
  rw [monthLoop_count last _ _ 0 hd rfl]
  unfold closedFormMonths monthIndex
  rw [hy, hm]
  omega

/-! ## Go's `int` arithmetic -/

theorem wrapInt_of_range (x : Int) (h1 : minInt ≤ x) (h2 : x ≤ maxInt) : wrapInt x = x := by
  unfold minInt at h1
  unfold maxInt at h2
  unfold wrapInt
  omega

theorem wrapInt_range (x : Int) : minInt ≤ wrapInt x ∧ wrapInt x ≤ maxInt := by
  unfold minInt maxInt wrapInt
  omega

theorem wrapInt_zero : wrapInt 0 = 0 := by
  decide

theorem wrapInt_wrapInt (x : Int) : wrapInt (wrapInt x) = wrapInt x := by
  unfold wrapInt
  omega

theorem wrapInt_add_wrapInt (a b : Int) : wrapInt (wrapInt a + wrapInt b) = wrapInt (a + b) := by
  unfold wrapInt
  omega

theorem wrapInt_add_left (a b : Int) : wrapInt (wrapInt a + b) = wrapInt (a + b) := by
  unfold wrapInt
  omega

theorem wrapInt_add_right (a b : Int) : wrapInt (a + wrapInt b) = wrapInt (a + b) := by
  unfold wrapInt
  omega

/-! ## One round and the whole loop over the records -/

/-- One round of the loop over the records, in the vocabulary of the specification. -/
theorem totalCostStep_eq (sub : Subscription) (startPeriod endPeriod : Time) (totalCost : Int) :
    totalCostStep startPeriod endPeriod totalCost sub =
      if (overlapStart sub startPeriod).After (overlapEnd sub endPeriod) then totalCost
      else wrapInt (totalCost + wrapInt (sub.Price *
        closedFormMonths (overlapStart sub startPeriod) (overlapEnd sub endPeriod))) := by
  have hstep : totalCostStep startPeriod endPeriod totalCost sub =
      if (overlapStart sub startPeriod).After (overlapEnd sub endPeriod) then totalCost
      else wrapInt (totalCost + wrapInt (sub.Price *
        monthLoop (Date (overlapStart sub startPeriod).Year (overlapStart sub startPeriod).Month 1)
          (overlapEnd sub endPeriod) 0)) := by
    unfold totalCostStep overlapStart overlapEnd effectiveEnd
    cases sub.EndDate <;> rfl
  rw [hstep]
  split
  · rfl
  · rename_i hno
    rw [monthLoop_closed_form _ _ (by simpa using hno)]

theorem contribution_eq (sub : Subscription) (startPeriod endPeriod : Time) :
    contribution sub startPeriod endPeriod =
      if (overlapStart sub startPeriod).After (overlapEnd sub endPeriod) then 0
      else wrapInt (sub.Price *
        closedFormMonths (overlapStart sub startPeriod) (overlapEnd sub endPeriod)) := by
  unfold contribution
  rw [totalCostStep_eq]
  split
  · rfl
  · rw [zero_add, wrapInt_wrapInt]

/-- The contribution is the exact cost, wrapped into Go's `int`. -/
theorem contribution_eq_wrapInt (sub : Subscription) (startPeriod endPeriod : Time) :
    contribution sub startPeriod endPeriod = wrapInt (exactCost sub startPeriod endPeriod) := by
  rw [contribution_eq]
  unfold exactCost billedMonths
  split
  · rw [mul_zero, wrapInt_zero]
  · rfl

/-- A round of the loop adds the record's contribution to the running total, in Go's `int`. -/
theorem totalCostStep_add (sub : Subscription) (startPeriod endPeriod : Time) (totalCost : Int) :
    totalCostStep startPeriod endPeriod (wrapInt totalCost) sub =
      wrapInt (totalCost + contribution sub startPeriod endPeriod) := by
  rw [contribution_eq, totalCostStep_eq]
  split
  · rw [add_zero]
  · rw [wrapInt_add_left]

theorem foldl_totalCostStep (subscriptions : List Subscription) (startPeriod endPeriod : Time) :
    ∀ totalCost : Int,
      subscriptions.foldl (totalCostStep startPeriod endPeriod) (wrapInt totalCost) =
        wrapInt (totalCost +
          (subscriptions.map fun sub => contribution sub startPeriod endPeriod).sum) := by
  induction subscriptions with
  | nil => intro t; simp
  | cons sub rest ih =>
    intro t
    rw [List.foldl_cons, totalCostStep_add, ih, List.map_cons, List.sum_cons, add_assoc]

/-- The total is the sum of the contributions of the records, in Go's `int`. -/
theorem sumCosts_eq_sum (subscriptions : List Subscription) (startPeriod endPeriod : Time) :
    sumCosts subscriptions startPeriod endPeriod =
      wrapInt (subscriptions.map fun sub => contribution sub startPeriod endPeriod).sum := by
  unfold sumCosts
  have h := foldl_totalCostStep subscriptions startPeriod endPeriod 0
  rw [wrapInt_zero, zero_add] at h
  exact h

/-! ## The order on dates -/

theorem day_bounds (t : Time) : 1 ≤ t.Day ∧ t.Day ≤ 31 := by
  have h := t.day_ok
  have : daysIn t.Month t.Year ≤ 31 := by
    unfold daysIn; split <;> (try split) <;> omega
  omega

theorem Before_iff_dayKey (t u : Time) : t.Before u = true ↔ dayKey t < dayKey u := by
  have h1 := t.month_ok
  have h2 := u.month_ok
  have h3 := day_bounds t
  have h4 := day_bounds u
  rw [Before_iff]
  unfold dayKey monthIndex
  omega

theorem After_iff_dayKey (t u : Time) : t.After u = true ↔ dayKey u < dayKey t := by
  unfold Time.After
  exact Before_iff_dayKey u t

theorem After_eq_false_iff (t u : Time) : t.After u = false ↔ dayKey t ≤ dayKey u := by
  rw [← Bool.not_eq_true, After_iff_dayKey]
  omega

theorem Before_eq_false_iff (t u : Time) : t.Before u = false ↔ dayKey u ≤ dayKey t := by
  rw [← Bool.not_eq_true, Before_iff_dayKey]
  omega

theorem dayKey_maxTime (a b : Time) : dayKey (maxTime a b) = max (dayKey a) (dayKey b) := by
  unfold maxTime
  split
  · rename_i h; rw [After_iff_dayKey] at h; omega
  · rename_i h; rw [After_iff_dayKey] at h; omega

theorem dayKey_minTime (a b : Time) : dayKey (minTime a b) = min (dayKey a) (dayKey b) := by
  unfold minTime
  split
  · rename_i h; rw [Before_iff_dayKey] at h; omega
  · rename_i h; rw [Before_iff_dayKey] at h; omega

theorem dayKey_overlapStart (sub : Subscription) (startPeriod : Time) :
    dayKey (overlapStart sub startPeriod) = max (dayKey sub.StartDate) (dayKey startPeriod) :=
  dayKey_maxTime _ _

theorem dayKey_overlapEnd_none (sub : Subscription) (endPeriod : Time)
    (h : sub.EndDate = none) : dayKey (overlapEnd sub endPeriod) = dayKey endPeriod := by
  unfold overlapEnd effectiveEnd
  rw [h, dayKey_minTime]
  simp

theorem dayKey_overlapEnd_some (sub : Subscription) (endPeriod endDate : Time)
    (h : sub.EndDate = some endDate) :
    dayKey (overlapEnd sub endPeriod) = min (dayKey endDate) (dayKey endPeriod) := by
  unfold overlapEnd effectiveEnd
  rw [h, dayKey_minTime]
  simp only
  split
  · rfl
  · rename_i hb; rw [Before_iff_dayKey] at hb; omega

/-- The month position is read off the day key: it is monotone in it. -/
theorem dayKey_eq (t : Time) : dayKey t = 32 * monthIndex t + t.Day := rfl

theorem monthIndex_mono (t u : Time) (h : dayKey t ≤ dayKey u) : monthIndex t ≤ monthIndex u := by
  have h3 := day_bounds t
  have h4 := day_bounds u
  rw [dayKey_eq, dayKey_eq] at h
  omega

theorem monthIndex_eq_of_dayKey_eq (t u : Time) (h : dayKey t = dayKey u) :
    monthIndex t = monthIndex u := by
  have h3 := day_bounds t
  have h4 := day_bounds u
  rw [dayKey_eq, dayKey_eq] at h
  omega

theorem closedFormMonths_eq (first last : Time) :
    closedFormMonths first last = monthIndex last - monthIndex first + 1 := by
  unfold closedFormMonths monthIndex
  ring

/-- The contribution by cases on the day keys of the clamped overlap. -/
theorem contribution_cases (sub : Subscription) (startPeriod endPeriod : Time) :
    (dayKey (overlapEnd sub endPeriod) < dayKey (overlapStart sub startPeriod) ∧
        contribution sub startPeriod endPeriod = 0) ∨
    (dayKey (overlapStart sub startPeriod) ≤ dayKey (overlapEnd sub endPeriod) ∧
        contribution sub startPeriod endPeriod = wrapInt (sub.Price *
          (monthIndex (overlapEnd sub endPeriod) - monthIndex (overlapStart sub startPeriod) + 1))) := by
  rw [contribution_eq, closedFormMonths_eq]
  split
  · rename_i h; rw [After_iff_dayKey] at h; exact Or.inl ⟨h, rfl⟩
  · rename_i h; rw [After_iff_dayKey] at h; exact Or.inr ⟨by omega, rfl⟩

/-- The overlap end does not move back when `periodEnd` moves forward. -/
theorem dayKey_overlapEnd_mono (sub : Subscription) (endPeriod endPeriod2 : Time)
    (h : dayKey endPeriod ≤ dayKey endPeriod2) :
    dayKey (overlapEnd sub endPeriod) ≤ dayKey (overlapEnd sub endPeriod2) := by
  cases hE : sub.EndDate with
  | none =>
    rw [dayKey_overlapEnd_none sub endPeriod hE, dayKey_overlapEnd_none sub endPeriod2 hE]
    exact h
  | some e =>
    rw [dayKey_overlapEnd_some sub endPeriod e hE, dayKey_overlapEnd_some sub endPeriod2 e hE]
    omega

/-! ## The day before the first of a month -/

/-- Day number 0 of a month is the last day of the month before it. -/
theorem normDay_day_zero (fuel : Nat) (hf : 2 ≤ fuel) (y : Int) (m : Nat)
    (hm : 1 ≤ m ∧ m ≤ 12) :
    (normDay fuel y m hm 0).Year = (if m = 1 then y - 1 else y)
    ∧ (normDay fuel y m hm 0).Month = (if m = 1 then 12 else m - 1)
    ∧ (normDay fuel y m hm 0).Day = (if m = 1 then 31 else daysIn (m - 1) y) := by
  obtain ⟨k, rfl⟩ := Nat.exists_eq_add_of_le hf
  rw [show 2 + k = (k + 1) + 1 by omega]
  unfold normDay
  rw [dif_pos (by omega)]
  split
  · rename_i h1
    obtain ⟨a, b, c⟩ := normDay_in_range (k + 1) (by omega) (y - 1) 12 (by decide) (0 + 31)
      (by omega) (by simp [daysIn])
    exact ⟨a, b, by omega⟩
  · rename_i h1
    have hd := one_le_daysIn (m - 1) y
    obtain ⟨a, b, c⟩ := normDay_in_range (k + 1) (by omega) y (m - 1) (by omega)
      (0 + daysIn (m - 1) y) (by omega) (by omega)
    exact ⟨a, b, by omega⟩

/-- From the first of a month, `AddDate(0, 1, -1)` leads to the last day of that month. -/
theorem AddDate_month_minus_day (t : Time) (h : t.Day = 1) :
    (t.AddDate 0 1 (-1)).Year = t.Year ∧ (t.AddDate 0 1 (-1)).Month = t.Month
    ∧ (t.AddDate 0 1 (-1)).Day = daysIn t.Month t.Year := by
  have hm := t.month_ok
  have hd0 : (t.Day : Int) + -1 = 0 := by omega
  unfold Time.AddDate Date
  rw [hd0]
  obtain ⟨a, b, c⟩ := normDay_day_zero ((0 : Int).natAbs + 2) (by omega)
    (t.Year + 0 + ((t.Month : Int) + 1 - 1) / 12)
    (((((t.Month : Int) + 1 - 1) % 12).toNat) + 1) (by omega)
  by_cases h12 : t.Month = 12
  · have hM : ((((t.Month : Int) + 1 - 1) % 12).toNat) + 1 = 1 := by omega
    rw [if_pos hM] at a b c
    refine ⟨by rw [a]; omega, by rw [b]; omega, ?_⟩
    rw [c, h12]
    simp [daysIn]
  · have hM : ¬ ((((t.Month : Int) + 1 - 1) % 12).toNat) + 1 = 1 := by omega
    rw [if_neg hM] at a b c
    have e1 : ((((t.Month : Int) + 1 - 1) % 12).toNat) + 1 - 1 = t.Month := by omega
    have e2 : t.Year + 0 + ((t.Month : Int) + 1 - 1) / 12 = t.Year := by omega
    refine ⟨by rw [a]; omega, by rw [b]; omega, ?_⟩
    rw [c, e1, e2]

/-- A successful `time.Parse("2006-01", value)` is the first day of the month it names. -/
theorem ParseYearMonth_first_day (value : String) (t : Time)
    (h : ParseYearMonth value = some t) : t.Day = 1 := by
  unfold ParseYearMonth at h
  split at h
  · split at h
    · split at h
      · simp only [Option.some.injEq] at h
        rw [← h]
        rfl
      · exact absurd h (by simp)
    · exact absurd h (by simp)
  · exact absurd h (by simp)

/-- What the handler passes on as the end of the period is the last day of the month that
the query value names. -/
theorem handlerEndPeriod_last_day (value : String) (r : Time)
    (h : handlerEndPeriod value = some r) :
    ∃ t, ParseYearMonth value = some t ∧ t.Day = 1 ∧ r.Year = t.Year ∧ r.Month = t.Month
      ∧ r.Day = daysIn t.Month t.Year := by
  unfold handlerEndPeriod at h
  cases hp : ParseYearMonth value with
  | none => rw [hp] at h; exact absurd h (by simp)
  | some t =>
    rw [hp] at h
    simp only [Option.some.injEq] at h
    have hd := ParseYearMonth_first_day value t hp
    obtain ⟨a, b, c⟩ := AddDate_month_minus_day t hd
    rw [h] at a b c
    exact ⟨t, rfl, hd, a, b, c⟩

/-! ## Months billed and exact costs -/

/-- The months billed by cases on the day keys of the clamped overlap. -/
theorem billedMonths_cases (sub : Subscription) (startPeriod endPeriod : Time) :
    (dayKey (overlapEnd sub endPeriod) < dayKey (overlapStart sub startPeriod) ∧
        billedMonths sub startPeriod endPeriod = 0) ∨
    (dayKey (overlapStart sub startPeriod) ≤ dayKey (overlapEnd sub endPeriod) ∧
        billedMonths sub startPeriod endPeriod =
          monthIndex (overlapEnd sub endPeriod) - monthIndex (overlapStart sub startPeriod) + 1) := by
  unfold billedMonths
  rw [closedFormMonths_eq]
  split
  · rename_i h; rw [After_iff_dayKey] at h; exact Or.inl ⟨h, rfl⟩
  · rename_i h; rw [After_iff_dayKey] at h; exact Or.inr ⟨by omega, rfl⟩

theorem billedMonths_nonneg (sub : Subscription) (startPeriod endPeriod : Time) :
    0 ≤ billedMonths sub startPeriod endPeriod := by
  rcases billedMonths_cases sub startPeriod endPeriod with ⟨_, hv⟩ | ⟨hle, hv⟩
  · rw [hv]
  · have := monthIndex_mono _ _ hle
    omega

/-- Moving `periodEnd` forward never lowers the number of months billed. -/
theorem billedMonths_mono_end (sub : Subscription) (startPeriod endPeriod endPeriod2 : Time)
    (h : dayKey endPeriod ≤ dayKey endPeriod2) :
    billedMonths sub startPeriod endPeriod ≤ billedMonths sub startPeriod endPeriod2 := by
  have hmono := dayKey_overlapEnd_mono sub endPeriod endPeriod2 h
  rcases billedMonths_cases sub startPeriod endPeriod with ⟨_, hv1⟩ | ⟨hle1, hv1⟩ <;>
    rcases billedMonths_cases sub startPeriod endPeriod2 with ⟨hlt2, hv2⟩ | ⟨hle2, hv2⟩
  · omega
  · have := monthIndex_mono _ _ hle2
    omega
  · omega
  · have := monthIndex_mono _ _ hmono
    omega

theorem exactCost_nonneg (sub : Subscription) (startPeriod endPeriod : Time)
    (hPrice : 0 ≤ sub.Price) : 0 ≤ exactCost sub startPeriod endPeriod :=
  mul_nonneg hPrice (billedMonths_nonneg sub startPeriod endPeriod)

/-- Where the exact cost of a record with non-negative price fits in Go's `int`, the
contribution is that exact cost. -/
theorem contribution_of_fits (sub : Subscription) (startPeriod endPeriod : Time)
    (hPrice : 0 ≤ sub.Price) (hFits : exactCost sub startPeriod endPeriod ≤ maxInt) :
    contribution sub startPeriod endPeriod = exactCost sub startPeriod endPeriod := by
  rw [contribution_eq_wrapInt]
  apply wrapInt_of_range _ _ hFits
  have := exactCost_nonneg sub startPeriod endPeriod hPrice
  unfold minInt
  omega

/-- Where the exact costs of records with non-negative prices add up to a value that fits in
Go's `int`, the total is that sum. -/
theorem sumCosts_of_fits (subscriptions : List Subscription) (startPeriod endPeriod : Time)
    (hPrices : ∀ sub ∈ subscriptions, 0 ≤ sub.Price)
    (hFits : (subscriptions.map fun sub => exactCost sub startPeriod endPeriod).sum ≤ maxInt) :
    sumCosts subscriptions startPeriod endPeriod
      = (subscriptions.map fun sub => exactCost sub startPeriod endPeriod).sum := by
  have hnn : ∀ x ∈ subscriptions.map (fun sub => exactCost sub startPeriod endPeriod), 0 ≤ x := by
    intro x hx
    obtain ⟨sub, hsub, rfl⟩ := List.mem_map.1 hx
    exact exactCost_nonneg sub startPeriod endPeriod (hPrices sub hsub)
  have hmap : (subscriptions.map fun sub => contribution sub startPeriod endPeriod)
      = (subscriptions.map fun sub => exactCost sub startPeriod endPeriod) := by
    apply List.map_congr_left
    intro sub hsub
    apply contribution_of_fits sub startPeriod endPeriod (hPrices sub hsub)
    exact le_trans (List.single_le_sum hnn _ (List.mem_map_of_mem _ hsub)) hFits
  rw [sumCosts_eq_sum, hmap]
  apply wrapInt_of_range _ _ hFits
  have := List.sum_nonneg hnn
  unfold minInt
  omega

/-! ## The claims -/

/-- C1: whenever the clamped overlap is non-empty (`overlapStart = max(startDate, periodStart)`
is not after `overlapEnd = min(effectiveEnd, periodEnd)`), the month-counting loop of
`CalculateTotalCost` yields `(year(overlapEnd) - year(overlapStart)) * 12 +
(month(overlapEnd) - month(overlapStart)) + 1`, and the record's contribution is its price
times that number: the product as Go's `int` holds it, which is the exact product whenever
that fits in 64 bits. -/
theorem loop_matches_closed_form (sub : Subscription) (startPeriod endPeriod : Time)
    (hOverlap : (overlapStart sub startPeriod).After (overlapEnd sub endPeriod) = false) :
    monthLoop (Date (overlapStart sub startPeriod).Year (overlapStart sub startPeriod).Month 1)
        (overlapEnd sub endPeriod) 0
      = ((overlapEnd sub endPeriod).Year - (overlapStart sub startPeriod).Year) * 12
        + (((overlapEnd sub endPeriod).Month : Int) - ((overlapStart sub startPeriod).Month : Int))
        + 1
    ∧ contribution sub startPeriod endPeriod
      = wrapInt (sub.Price *
          closedFormMonths (overlapStart sub startPeriod) (overlapEnd sub endPeriod))
    ∧ (minInt ≤ sub.Price *
          closedFormMonths (overlapStart sub startPeriod) (overlapEnd sub endPeriod) →
        sub.Price * closedFormMonths (overlapStart sub startPeriod) (overlapEnd sub endPeriod)
          ≤ maxInt →
        contribution sub startPeriod endPeriod
          = sub.Price *
            closedFormMonths (overlapStart sub startPeriod) (overlapEnd sub endPeriod)) := by
  have hc : contribution sub startPeriod endPeriod
      = wrapInt (sub.Price *
          closedFormMonths (overlapStart sub startPeriod) (overlapEnd sub endPeriod)) := by
    rw [contribution_eq, hOverlap]
    simp
  refine ⟨monthLoop_closed_form _ _ hOverlap, hc, ?_⟩
  intro h1 h2
  rw [hc, wrapInt_of_range _ h1 h2]

/-- Witness of C1: scenario 1 in the window 2024-01-01..2024-03-31 overlaps, the loop counts
three months and the contribution is 3000. -/
theorem loop_matches_closed_form_witness :
    (overlapStart scenario1 jan01).After (overlapEnd scenario1 mar31) = false
    ∧ monthLoop (Date (overlapStart scenario1 jan01).Year (overlapStart scenario1 jan01).Month 1)
        (overlapEnd scenario1 mar31) 0 = 3
    ∧ contribution scenario1 jan01 mar31 = 3000 :=
  ⟨by decide,
   (loop_matches_closed_form scenario1 jan01 mar31 (by decide)).1.trans (by decide),
   (loop_matches_closed_form scenario1 jan01 mar31 (by decide)).2.1.trans (by decide)⟩

/-- C2: for a single listed record that has an end date and lies fully inside the window
(`periodStart ≤ startDate ≤ endDate ≤ periodEnd`), `CalculateTotalCost` returns `price * N`
(the product as Go's `int` holds it) with a nil error, `N` being the number of calendar months
from the month of `startDate` through the month of `endDate`, both included. -/
theorem single_record_inside_window (repo : SubscriptionRepository) (userID : Nat)
    (serviceName : Option String) (sub : Subscription) (endDate startPeriod endPeriod : Time)
    (hList : repo.ListByUserID userID serviceName = .ok [sub])
    (hEnd : sub.EndDate = some endDate)
    (hStart : startPeriod.After sub.StartDate = false)
    (hOrder : sub.StartDate.After endDate = false)
    (hInside : endDate.After endPeriod = false) :
    CalculateTotalCost repo userID serviceName startPeriod endPeriod
      = (wrapInt (sub.Price * (monthsSpanned sub.StartDate endDate : Int)), none) := by
  rw [After_eq_false_iff] at hStart hOrder hInside
  have hs := dayKey_overlapStart sub startPeriod
  have he := dayKey_overlapEnd_some sub endPeriod endDate hEnd
  have hidxS : monthIndex (overlapStart sub startPeriod) = monthIndex sub.StartDate :=
    monthIndex_eq_of_dayKey_eq _ _ (by omega)
  have hidxE : monthIndex (overlapEnd sub endPeriod) = monthIndex endDate :=
    monthIndex_eq_of_dayKey_eq _ _ (by omega)
  have hmono := monthIndex_mono _ _ hOrder
  have hN : (monthsSpanned sub.StartDate endDate : Int)
      = monthIndex endDate - monthIndex sub.StartDate + 1 := by
    unfold monthsSpanned
    rw [Int.card_Icc]
    omega
  have hc : contribution sub startPeriod endPeriod
      = wrapInt (sub.Price * (monthIndex endDate - monthIndex sub.StartDate + 1)) := by
    rcases contribution_cases sub startPeriod endPeriod with ⟨hlt, _⟩ | ⟨_, hval⟩
    · omega
    · rw [hval, hidxS, hidxE]
  unfold CalculateTotalCost
  rw [hList]
  simp only [sumCosts_eq_sum, List.map_cons, List.map_nil, List.sum_cons, List.sum_nil, add_zero]
  rw [hc, hN, wrapInt_wrapInt]

/-- Witness of C2: scenario 2 (2024-02-01..2024-02-20 at price 500) in the window
2024-01-01..2024-03-31 gives a total of 500. -/
theorem single_record_inside_window_witness :
    CalculateTotalCost (storeOf [scenario2]) 7 none jan01 mar31 = (500, none) :=
  (single_record_inside_window (storeOf [scenario2]) 7 none scenario2 feb20 jan01 mar31
    rfl rfl (by decide) (by decide) (by decide)).trans (by decide)

/-- C3: a record with no end date contributes what the same record with `endDate` set to
`periodEnd` contributes, and its overlap ends at `periodEnd`: an open-ended subscription is
billed through the month of `periodEnd` and no further. -/
theorem open_ended_capped_at_period_end (sub : Subscription) (startPeriod endPeriod : Time)
    (hOpen : sub.EndDate = none) :
    contribution sub startPeriod endPeriod
      = contribution { sub with EndDate := some endPeriod } startPeriod endPeriod
    ∧ overlapEnd sub endPeriod = endPeriod := by
  have hirr : endPeriod.Before endPeriod = false := by
    rw [Before_eq_false_iff]
  constructor
  · unfold contribution totalCostStep
    rw [hOpen]
    simp [hirr]
  · unfold overlapEnd effectiveEnd minTime
    rw [hOpen]
    simp

/-- Witness of C3: scenario 1 (start 2024-01-15, no end date, price 1000) in the window
2024-01-01..2024-03-31 contributes 3000, as it does with the end date 2024-03-31. -/
theorem open_ended_capped_at_period_end_witness :
    contribution scenario1 jan01 mar31 = 3000
    ∧ contribution { scenario1 with EndDate := some mar31 } jan01 mar31 = 3000
    ∧ overlapEnd scenario1 mar31 = mar31 := by
  have h := open_ended_capped_at_period_end scenario1 jan01 mar31 rfl
  have h3000 : contribution scenario1 jan01 mar31 = 3000 := by
    rw [contribution_eq]; decide
  exact ⟨h3000, h.1 ▸ h3000, h.2⟩

/-- C4: a record whose interval is disjoint from the window (`startDate` after `periodEnd`, or
`endDate` present and before `periodStart`) contributes exactly 0. -/
theorem disjoint_record_contributes_zero (sub : Subscription) (startPeriod endPeriod : Time)
    (hDisjoint : sub.StartDate.After endPeriod = true ∨
      ∃ endDate, sub.EndDate = some endDate ∧ endDate.Before startPeriod = true) :
    contribution sub startPeriod endPeriod = 0 := by
  have hs := dayKey_overlapStart sub startPeriod
  rcases contribution_cases sub startPeriod endPeriod with ⟨_, hval⟩ | ⟨hle, _⟩
  · exact hval
  · exfalso
    rcases hDisjoint with hAfter | ⟨endDate, hEnd, hBefore⟩
    · rw [After_iff_dayKey] at hAfter
      cases hE : sub.EndDate with
      | none =>
        have he := dayKey_overlapEnd_none sub endPeriod hE
        omega
      | some e =>
        have he := dayKey_overlapEnd_some sub endPeriod e hE
        omega
    · rw [Before_iff_dayKey] at hBefore
      have he := dayKey_overlapEnd_some sub endPeriod endDate hEnd
      omega

/-- Witness of C4: scenario 3 (start 2024-05-01, no end date, price 100) contributes 0 to the
window 2024-01-01..2024-03-31. -/
theorem disjoint_record_contributes_zero_witness :
    scenario3.StartDate.After mar31 = true ∧ contribution scenario3 jan01 mar31 = 0 :=
  ⟨by decide, disjoint_record_contributes_zero scenario3 jan01 mar31 (Or.inl (by decide))⟩

/-- C5: when the clamped overlap is a single day (`overlapStart = overlapEnd`), the record is
billed exactly one month: its contribution equals its price. -/
theorem single_day_overlap_bills_one_month (sub : Subscription) (startPeriod endPeriod : Time)
    (hDay : overlapStart sub startPeriod = overlapEnd sub endPeriod) :
    contribution sub startPeriod endPeriod = sub.Price := by
  rcases contribution_cases sub startPeriod endPeriod with ⟨hlt, _⟩ | ⟨_, hval⟩
  · rw [hDay] at hlt; omega
  · rw [hval, hDay, sub_self, zero_add, mul_one]
    have hp := sub.price_ok
    exact wrapInt_of_range _ (by unfold minInt; omega) (by unfold maxInt; omega)

/-- Witness of C5: a record that starts on the last day of the window (`startDate =
periodEnd = 2024-03-31`) and a record that ends on its first day (`endDate = periodStart =
2024-01-15`, started earlier) are both billed one month. -/
theorem single_day_overlap_bills_one_month_witness :
    (overlapStart lastDayRecord jan01 = overlapEnd lastDayRecord mar31
      ∧ contribution lastDayRecord jan01 mar31 = 250)
    ∧ contribution firstDayRecord jan15 mar31 = 40 :=
  ⟨⟨by decide, single_day_overlap_bills_one_month lastDayRecord jan01 mar31 (by decide)⟩,
   single_day_overlap_bills_one_month firstDayRecord jan15 mar31 (by decide)⟩

/-- C6: a record whose `endDate` is present and strictly earlier than its `startDate`
contributes exactly 0 in every window: a list holds the same total with and without it, and
`CalculateTotalCost` returns a nil error on every successful listing that contains it. -/
theorem inverted_record_contributes_zero (sub : Subscription) (endDate : Time)
    (hEnd : sub.EndDate = some endDate) (hInverted : endDate.Before sub.StartDate = true)
    (startPeriod endPeriod : Time) :
    contribution sub startPeriod endPeriod = 0
    ∧ (∀ front back : List Subscription,
        sumCosts (front ++ sub :: back) startPeriod endPeriod
          = sumCosts (front ++ back) startPeriod endPeriod)
    ∧ (∀ (repo : SubscriptionRepository) (userID : Nat) (serviceName : Option String)
        (subscriptions : List Subscription),
        repo.ListByUserID userID serviceName = .ok subscriptions → sub ∈ subscriptions →
        (CalculateTotalCost repo userID serviceName startPeriod endPeriod).2 = none) := by
  have hzero : contribution sub startPeriod endPeriod = 0 := by
    rw [Before_iff_dayKey] at hInverted
    have hs := dayKey_overlapStart sub startPeriod
    have he := dayKey_overlapEnd_some sub endPeriod endDate hEnd
    rcases contribution_cases sub startPeriod endPeriod with ⟨_, hval⟩ | ⟨hle, _⟩
    · exact hval
    · omega
  refine ⟨hzero, ?_, ?_⟩
  · intro front back
    simp [sumCosts_eq_sum, hzero]
  · intro repo userID serviceName subscriptions hList _
    unfold CalculateTotalCost
    rw [hList]

/-- Witness of C6: scenario 5 (start 2024-02-20, end 2024-01-15) contributes 0 to the window
2024-01-01..2024-03-31 and raises no error. -/
theorem inverted_record_contributes_zero_witness :
    contribution scenario5 jan01 mar31 = 0
    ∧ CalculateTotalCost (storeOf [scenario2, scenario5]) 7 none jan01 mar31 = (500, none) := by
  obtain ⟨h0, hdrop, _⟩ := inverted_record_contributes_zero scenario5 jan15 rfl (by decide)
    jan01 mar31
  refine ⟨h0, ?_⟩
  have h := hdrop [scenario2] []
  simp only [List.singleton_append, List.append_nil] at h
  show (sumCosts [scenario2, scenario5] jan01 mar31, (none : Option Error)) = (500, none)
  rw [h, sumCosts_eq_sum]
  simp only [List.map_cons, List.map_nil, List.sum_cons, List.sum_nil, contribution_eq]
  decide

/-- C7: when `periodStart` is strictly after `periodEnd`, `CalculateTotalCost` returns a total
of 0 for every list of records, whatever their prices and dates. -/
theorem inverted_window_total_zero (startPeriod endPeriod : Time)
    (hInverted : startPeriod.After endPeriod = true)
    (repo : SubscriptionRepository) (userID : Nat) (serviceName : Option String)
    (subscriptions : List Subscription)
    (hList : repo.ListByUserID userID serviceName = .ok subscriptions) :
    CalculateTotalCost repo userID serviceName startPeriod endPeriod = (0, none) := by
  rw [After_iff_dayKey] at hInverted
  have hzero : ∀ sub : Subscription, contribution sub startPeriod endPeriod = 0 := by
    intro sub
    have hs := dayKey_overlapStart sub startPeriod
    rcases contribution_cases sub startPeriod endPeriod with ⟨_, hval⟩ | ⟨hle, _⟩
    · exact hval
    · exfalso
      cases hE : sub.EndDate with
      | none =>
        have he := dayKey_overlapEnd_none sub endPeriod hE
        omega
      | some e =>
        have he := dayKey_overlapEnd_some sub endPeriod e hE
        omega
  unfold CalculateTotalCost
  rw [hList]
  simp [sumCosts_eq_sum, hzero, wrapInt_zero]

/-- Witness of C7: the inverted window 2024-03-31..2024-01-01 gives a total of 0 on the records
of scenarios 1 and 2. -/
theorem inverted_window_total_zero_witness :
    mar31.After jan01 = true
    ∧ CalculateTotalCost (storeOf [scenario1, scenario2]) 7 none mar31 jan01 = (0, none) :=
  ⟨by decide,
   inverted_window_total_zero mar31 jan01 (by decide) (storeOf [scenario1, scenario2]) 7 none
     [scenario1, scenario2] rfl⟩

/-- C8: the total over a concatenation `A ++ B` is the total over `A` plus the total over `B`,
for every window, the sum being Go's `+` on `int`. -/
theorem total_additive (repoA repoB repoAB : SubscriptionRepository) (userID : Nat)
    (serviceName : Option String) (recordsA recordsB : List Subscription)
    (startPeriod endPeriod : Time)
    (hA : repoA.ListByUserID userID serviceName = .ok recordsA)
    (hB : repoB.ListByUserID userID serviceName = .ok recordsB)
    (hAB : repoAB.ListByUserID userID serviceName = .ok (recordsA ++ recordsB)) :
    (CalculateTotalCost repoAB userID serviceName startPeriod endPeriod).1
      = wrapInt ((CalculateTotalCost repoA userID serviceName startPeriod endPeriod).1
        + (CalculateTotalCost repoB userID serviceName startPeriod endPeriod).1) := by
  unfold CalculateTotalCost
  rw [hA, hB, hAB]
  simp only [sumCosts_eq_sum, List.map_append, List.sum_append, wrapInt_add_wrapInt]

/-- Witness of C8: two records priced 100 and 200, each covering both months of the window
2024-01-01..2024-02-29, give 600 = 200 + 400. -/
theorem total_additive_witness :
    (CalculateTotalCost (storeOf [scenario4a, scenario4b]) 7 none jan01 feb29).1 = 600
    ∧ (CalculateTotalCost (storeOf [scenario4a]) 7 none jan01 feb29).1 = 200
    ∧ (CalculateTotalCost (storeOf [scenario4b]) 7 none jan01 feb29).1 = 400 := by
  have h := total_additive (storeOf [scenario4a]) (storeOf [scenario4b])
    (storeOf [scenario4a, scenario4b]) 7 none [scenario4a] [scenario4b] jan01 feb29 rfl rfl rfl
  have ha : (CalculateTotalCost (storeOf [scenario4a]) 7 none jan01 feb29).1 = 200 := by
    show sumCosts [scenario4a] jan01 feb29 = 200
    rw [sumCosts_eq_sum]
    simp only [List.map_cons, List.map_nil, List.sum_cons, List.sum_nil, contribution_eq]
    decide
  have hb : (CalculateTotalCost (storeOf [scenario4b]) 7 none jan01 feb29).1 = 400 := by
    show sumCosts [scenario4b] jan01 feb29 = 400
    rw [sumCosts_eq_sum]
    simp only [List.map_cons, List.map_nil, List.sum_cons, List.sum_nil, contribution_eq]
    decide
  refine ⟨?_, ha, hb⟩
  rw [h, ha, hb]
  decide

/-- C9 as stated fails: with price `2^62`, start 2024-01-15, no end date and `periodStart`
2024-01-01, the contribution is `2^62` for `periodEnd` 2024-01-31 and, the product of the
price and two months wrapping around, `-2^63` for the wider `periodEnd` 2024-02-29. -/
theorem widening_period_end_counterexample :
    ¬ (∀ (sub : Subscription) (startPeriod endPeriod endPeriod2 : Time),
        0 ≤ sub.Price → endPeriod.After endPeriod2 = false →
        contribution sub startPeriod endPeriod ≤ contribution sub startPeriod endPeriod2) := by
  intro h
  have hle := h hugePrice jan01 jan31 feb29 (by decide) (by decide)
  have h1 : contribution hugePrice jan01 jan31 = 4611686018427387904 := by
    rw [contribution_eq]; decide
  have h2 : contribution hugePrice jan01 feb29 = -9223372036854775808 := by
    rw [contribution_eq]; decide
  rw [h1, h2] at hle
  exact absurd hle (by decide)

/-- C9, amended: for a record with non-negative price whose exact cost in the wider window
(price times the months billed there) fits in Go's `int`, widening `periodEnd` never decreases
the record's contribution: with `periodEnd ≤ periodEnd2`, the contribution for
`[periodStart, periodEnd2]` is at least the contribution for `[periodStart, periodEnd]`. -/
theorem widening_period_end_monotone (sub : Subscription)
    (startPeriod endPeriod endPeriod2 : Time)
    (hPrice : 0 ≤ sub.Price) (hWiden : endPeriod.After endPeriod2 = false)
    (hFits : sub.Price * billedMonths sub startPeriod endPeriod2 ≤ maxInt) :
    contribution sub startPeriod endPeriod ≤ contribution sub startPeriod endPeriod2 := by
  rw [After_eq_false_iff] at hWiden
  have hmono := billedMonths_mono_end sub startPeriod endPeriod endPeriod2 hWiden
  have hle : exactCost sub startPeriod endPeriod ≤ exactCost sub startPeriod endPeriod2 :=
    mul_le_mul_of_nonneg_left hmono hPrice
  have hFits2 : exactCost sub startPeriod endPeriod2 ≤ maxInt := hFits
  rw [contribution_of_fits sub startPeriod endPeriod hPrice (le_trans hle hFits2),
    contribution_of_fits sub startPeriod endPeriod2 hPrice hFits2]
  exact hle

/-- Witness of amended C9: scenario 1 contributes 2000 to 2024-01-01..2024-02-29 and 3000 to
the wider 2024-01-01..2024-03-31. -/
theorem widening_period_end_monotone_witness :
    contribution scenario1 jan01 feb29 ≤ contribution scenario1 jan01 mar31
    ∧ contribution scenario1 jan01 feb29 = 2000 ∧ contribution scenario1 jan01 mar31 = 3000 :=
  ⟨widening_period_end_monotone scenario1 jan01 feb29 mar31 (by decide) (by decide) (by decide),
   by rw [contribution_eq]; decide, by rw [contribution_eq]; decide⟩

/-- C10 as stated fails: scenario 1 overlaps the window 2024-01-01..2024-03-31 on
2024-01-15..2024-03-31 and contributes 3000; moving `periodStart` to 2024-02-01, a later date
inside that overlap, lowers the contribution to 2000. The opposite direction needs the cost to
fit in Go's `int`: at price `2^62` and `periodEnd` 2024-02-29 the same move raises the
contribution from `-2^63` to `2^62`. -/
theorem narrowing_period_start_counterexample :
    ¬ (∀ (sub : Subscription) (startPeriod startPeriod2 endPeriod : Time),
        0 ≤ sub.Price →
        (overlapStart sub startPeriod).After (overlapEnd sub endPeriod) = false →
        startPeriod.Before startPeriod2 = true →
        (overlapStart sub startPeriod).After startPeriod2 = false →
        startPeriod2.After (overlapEnd sub endPeriod) = false →
        contribution sub startPeriod endPeriod ≤ contribution sub startPeriod2 endPeriod)
    ∧ contribution hugePrice jan01 feb29 = -9223372036854775808
    ∧ contribution hugePrice feb01 feb29 = 4611686018427387904 := by
  refine ⟨?_, by rw [contribution_eq]; decide, by rw [contribution_eq]; decide⟩
  intro h
  have hle := h scenario1 jan01 feb01 mar31 (by decide) (by decide) (by decide) (by decide)
    (by decide)
  have h1 : contribution scenario1 jan01 mar31 = 3000 := by rw [contribution_eq]; decide
  have h2 : contribution scenario1 feb01 mar31 = 2000 := by rw [contribution_eq]; decide
  rw [h1, h2] at hle
  exact absurd hle (by decide)

/-- C10, amended: for a record with non-negative price and a window that the record overlaps,
the exact cost in that window (price times the months billed) fitting in Go's `int`, moving
`periodStart` to a later date that still lies inside the record's overlap with the window
never increases the record's contribution, and the record stays billed for at least one
month. -/
theorem narrowing_period_start_antitone (sub : Subscription)
    (startPeriod startPeriod2 endPeriod : Time)
    (hPrice : 0 ≤ sub.Price)
    (hOverlap : (overlapStart sub startPeriod).After (overlapEnd sub endPeriod) = false)
    (hLater : startPeriod.Before startPeriod2 = true)
    (hInsideLeft : (overlapStart sub startPeriod).After startPeriod2 = false)
    (hInsideRight : startPeriod2.After (overlapEnd sub endPeriod) = false)
    (hFits : sub.Price * billedMonths sub startPeriod endPeriod ≤ maxInt) :
    contribution sub startPeriod2 endPeriod ≤ contribution sub startPeriod endPeriod
    ∧ sub.Price ≤ contribution sub startPeriod2 endPeriod := by
  rw [After_eq_false_iff] at hOverlap hInsideLeft hInsideRight
  rw [Before_iff_dayKey] at hLater
  have hs := dayKey_overlapStart sub startPeriod
  have hs2 := dayKey_overlapStart sub startPeriod2
  have hkey : dayKey (overlapStart sub startPeriod) ≤ dayKey (overlapStart sub startPeriod2) := by
    omega
  have hm1 := monthIndex_mono _ _ hkey
  have hbm : 1 ≤ billedMonths sub startPeriod2 endPeriod
      ∧ billedMonths sub startPeriod2 endPeriod ≤ billedMonths sub startPeriod endPeriod := by
    rcases billedMonths_cases sub startPeriod endPeriod with ⟨hlt1, _⟩ | ⟨_, hv1⟩
    · omega
    · rcases billedMonths_cases sub startPeriod2 endPeriod with ⟨hlt2, _⟩ | ⟨hle2, hv2⟩
      · omega
      · have hm2 := monthIndex_mono _ _ hle2
        omega
  have hle : exactCost sub startPeriod2 endPeriod ≤ exactCost sub startPeriod endPeriod :=
    mul_le_mul_of_nonneg_left hbm.2 hPrice
  have hFits1 : exactCost sub startPeriod endPeriod ≤ maxInt := hFits
  rw [contribution_of_fits sub startPeriod endPeriod hPrice hFits1,
    contribution_of_fits sub startPeriod2 endPeriod hPrice (le_trans hle hFits1)]
  refine ⟨hle, ?_⟩
  have := mul_le_mul_of_nonneg_left hbm.1 hPrice
  rw [mul_one] at this
  exact this

/-- Witness of amended C10: for scenario 1, moving `periodStart` from 2024-01-01 to 2024-02-01
inside the window ending 2024-03-31 takes the contribution from 3000 to 2000. -/
theorem narrowing_period_start_antitone_witness :
    contribution scenario1 feb01 mar31 ≤ contribution scenario1 jan01 mar31
    ∧ scenario1.Price ≤ contribution scenario1 feb01 mar31 :=
  narrowing_period_start_antitone scenario1 jan01 feb01 mar31 (by decide) (by decide)
    (by decide) (by decide) (by decide) (by decide)

/-- C11 as stated fails: one record of price `2^62` (non-negative) billed for the two months of
the window 2024-01-01..2024-02-29 makes `CalculateTotalCost` return `-2^63`, the product
wrapping around in Go's `int`. -/
theorem total_nonnegative_counterexample :
    0 ≤ hugePrice.Price
    ∧ CalculateTotalCost (storeOf [hugePrice]) 7 none jan01 feb29
        = (-9223372036854775808, none) := by
  refine ⟨by decide, ?_⟩
  show (sumCosts [hugePrice] jan01 feb29, (none : Option Error)) = (-9223372036854775808, none)
  rw [sumCosts_eq_sum]
  simp only [List.map_cons, List.map_nil, List.sum_cons, List.sum_nil, contribution_eq]
  decide

/-- C11, amended: when every listed record has a non-negative price and the exact costs of the
listed records (price times the months billed) add up to a value that fits in Go's `int`, the
total returned by `CalculateTotalCost` is that sum, a non-negative integer, for every window,
inverted ones included (and also when the listing fails, the total then being 0). -/
theorem total_nonnegative (repo : SubscriptionRepository) (userID : Nat)
    (serviceName : Option String) (startPeriod endPeriod : Time)
    (hPrices : ∀ subscriptions : List Subscription,
      repo.ListByUserID userID serviceName = .ok subscriptions →
      ∀ sub ∈ subscriptions, 0 ≤ sub.Price)
    (hFits : ∀ subscriptions : List Subscription,
      repo.ListByUserID userID serviceName = .ok subscriptions →
      (subscriptions.map fun sub => sub.Price * billedMonths sub startPeriod endPeriod).sum
        ≤ maxInt) :
    0 ≤ (CalculateTotalCost repo userID serviceName startPeriod endPeriod).1
    ∧ (∀ subscriptions : List Subscription,
        repo.ListByUserID userID serviceName = .ok subscriptions →
        (CalculateTotalCost repo userID serviceName startPeriod endPeriod).1
          = (subscriptions.map
              fun sub => sub.Price * billedMonths sub startPeriod endPeriod).sum) := by
  unfold CalculateTotalCost
  cases hList : repo.ListByUserID userID serviceName with
  | error err =>
    refine ⟨le_refl _, ?_⟩
    intro subscriptions h
    cases h
  | ok subscriptions =>
    have hsum := sumCosts_of_fits subscriptions startPeriod endPeriod
      (hPrices subscriptions hList) (hFits subscriptions hList)
    refine ⟨?_, ?_⟩
    · show 0 ≤ sumCosts subscriptions startPeriod endPeriod
      rw [hsum]
      apply List.sum_nonneg
      intro x hx
      obtain ⟨sub, hsub, rfl⟩ := List.mem_map.1 hx
      exact exactCost_nonneg sub startPeriod endPeriod (hPrices subscriptions hList sub hsub)
    · intro subscriptions2 h
      cases h
      exact hsum

/-- Witness of amended C11: the records of scenarios 1, 2 and 5 (prices 1000, 500 and 300) give
a non-negative total in the window 2024-01-01..2024-03-31, namely 3500, and in the inverted
window 2024-03-31..2024-01-01. -/
theorem total_nonnegative_witness :
    0 ≤ (CalculateTotalCost (storeOf [scenario1, scenario2, scenario5]) 7 none jan01 mar31).1
    ∧ (CalculateTotalCost (storeOf [scenario1, scenario2, scenario5]) 7 none jan01 mar31).1 = 3500
    ∧ 0 ≤ (CalculateTotalCost (storeOf [scenario1, scenario2, scenario5]) 7 none mar31 jan01).1 := by
  have hl : ∀ subscriptions : List Subscription,
      (storeOf [scenario1, scenario2, scenario5]).ListByUserID 7 none = .ok subscriptions →
      subscriptions = [scenario1, scenario2, scenario5] := by
    intro subscriptions h
    simp only [storeOf, Except.ok.injEq] at h
    exact h.symm
  have hp : ∀ subscriptions : List Subscription,
      (storeOf [scenario1, scenario2, scenario5]).ListByUserID 7 none = .ok subscriptions →
      ∀ sub ∈ subscriptions, 0 ≤ sub.Price := by
    intro subscriptions h sub hsub
    rw [hl subscriptions h] at hsub
    simp only [List.mem_cons, List.mem_singleton, List.not_mem_nil, or_false] at hsub
    rcases hsub with rfl | rfl | rfl <;> decide
  have hf : ∀ (startPeriod endPeriod : Time),
      (([scenario1, scenario2, scenario5].map
        fun sub => sub.Price * billedMonths sub startPeriod endPeriod).sum ≤ maxInt) →
      ∀ subscriptions : List Subscription,
      (storeOf [scenario1, scenario2, scenario5]).ListByUserID 7 none = .ok subscriptions →
      (subscriptions.map fun sub => sub.Price * billedMonths sub startPeriod endPeriod).sum
        ≤ maxInt := by
    intro startPeriod endPeriod hle subscriptions h
    rw [hl subscriptions h]
    exact hle
  have h1 := total_nonnegative (storeOf [scenario1, scenario2, scenario5]) 7 none jan01 mar31 hp
    (hf jan01 mar31 (by decide))
  have h2 := total_nonnegative (storeOf [scenario1, scenario2, scenario5]) 7 none mar31 jan01 hp
    (hf mar31 jan01 (by decide))
  refine ⟨h1.1, ?_, h2.1⟩
  rw [h1.2 [scenario1, scenario2, scenario5] rfl]
  decide

/-- C12: `CalculateTotalCost` returns an error exactly when the store's `ListByUserID` does;
it then returns that same error together with the total 0, and whenever the listing succeeds
it returns a nil error, for every record list and every window. -/
theorem error_iff_listing_fails (repo : SubscriptionRepository) (userID : Nat)
    (serviceName : Option String) (startPeriod endPeriod : Time) :
    ((CalculateTotalCost repo userID serviceName startPeriod endPeriod).2 ≠ none
      ↔ ∃ err, repo.ListByUserID userID serviceName = .error err)
    ∧ (∀ err, repo.ListByUserID userID serviceName = .error err →
        CalculateTotalCost repo userID serviceName startPeriod endPeriod = (0, some err))
    ∧ (∀ subscriptions, repo.ListByUserID userID serviceName = .ok subscriptions →
        CalculateTotalCost repo userID serviceName startPeriod endPeriod
          = (sumCosts subscriptions startPeriod endPeriod, none)) := by
  unfold CalculateTotalCost
  cases hList : repo.ListByUserID userID serviceName with
  | error err =>
    refine ⟨⟨fun _ => ⟨err, rfl⟩, fun _ => by simp⟩, ?_, ?_⟩
    · intro err2 h
      cases h
      rfl
    · intro subscriptions h
      cases h
  | ok subscriptions =>
    refine ⟨⟨fun h => absurd rfl h, fun ⟨err, h⟩ => by cases h⟩, ?_, ?_⟩
    · intro err h
      cases h
    · intro subscriptions2 h
      cases h
      rfl

/-- Witness of C12: a failing store hands its error through with total 0; a store that lists
the inverted record of scenario 5 gives a nil error, also in an inverted window. -/
theorem error_iff_listing_fails_witness :
    CalculateTotalCost (failingStore "storage unavailable") 7 none jan01 mar31
      = (0, some "storage unavailable")
    ∧ CalculateTotalCost (storeOf [scenario5]) 7 none mar31 jan01
      = (sumCosts [scenario5] mar31 jan01, none) :=
  ⟨(error_iff_listing_fails (failingStore "storage unavailable") 7 none jan01 mar31).2.1
      "storage unavailable" rfl,
   (error_iff_listing_fails (storeOf [scenario5]) 7 none mar31 jan01).2.2 [scenario5] rfl⟩

/-- C13: for every year `y` and month `m`, the handler's end-period normalisation (the first
day of month `m` of year `y`, as parsed from "YYYY-MM", then `AddDate(0, 1, -1)`) yields the
last calendar day of that same month: year `y`, month `m`, and day 31, 30, 29 or 28 as the
calendar requires; no date of that month is after it. -/
theorem end_period_is_last_day_of_month (y : Int) (m : Nat) (hm : 1 ≤ m ∧ m ≤ 12) :
    ((firstOfMonth y m hm).AddDate 0 1 (-1)).Year = y
    ∧ ((firstOfMonth y m hm).AddDate 0 1 (-1)).Month = m
    ∧ ((firstOfMonth y m hm).AddDate 0 1 (-1)).Day
        = (if m = 2 then (if y % 4 = 0 ∧ (y % 100 ≠ 0 ∨ y % 400 = 0) then 29 else 28)
           else if m = 4 ∨ m = 6 ∨ m = 9 ∨ m = 11 then 30
           else 31)
    ∧ (∀ t : Time, t.Year = y → t.Month = m →
        t.After ((firstOfMonth y m hm).AddDate 0 1 (-1)) = false) := by
  obtain ⟨a, b, c⟩ := AddDate_month_minus_day (firstOfMonth y m hm) rfl
  have hy : (firstOfMonth y m hm).Year = y := rfl
  have hmo : (firstOfMonth y m hm).Month = m := rfl
  rw [hy] at a c
  rw [hmo] at b c
  refine ⟨a, b, ?_, ?_⟩
  · rw [c]
    unfold daysIn isLeap
    by_cases h2 : m = 2
    · simp only [h2, if_true]
      by_cases hl : y % 4 = 0 ∧ (y % 100 ≠ 0 ∨ y % 400 = 0)
      · rw [if_pos hl, if_pos (by simpa using hl)]
      · rw [if_neg hl, if_neg (by simpa using hl)]
    · simp only [h2, if_false]
  · intro t hty htm
    have hday := t.day_ok
    rw [After_eq_false_iff, dayKey_eq, dayKey_eq]
    unfold monthIndex
    rw [a, b, c, hty, htm]
    rw [hty, htm] at hday
    omega

/-- Witness of C13: "2024-03" gives 2024-03-31 and "2024-02" gives 2024-02-29. -/
theorem end_period_is_last_day_of_month_witness :
    handlerEndPeriod "2024-03" = some mar31
    ∧ handlerEndPeriod "2024-02" = some feb29
    ∧ ((firstOfMonth 2024 3 (by decide)).AddDate 0 1 (-1)).Day = 31
    ∧ ((firstOfMonth 2024 2 (by decide)).AddDate 0 1 (-1)).Day = 29 :=
  ⟨by decide, by decide,
   (end_period_is_last_day_of_month 2024 3 (by decide)).2.2.1.trans (by decide),
   (end_period_is_last_day_of_month 2024 2 (by decide)).2.2.1.trans (by decide)⟩

end SubscriptionService
